import Mathlib

/-!
Shallow embedding of `src/vs/editor/contrib/suggest/browser/suggest.ts`
(the suggestion trigger orchestrator): the `suggestStateMachine`
namespace, the `Word` class, the `WordListener`, the
`TriggerCharacterListener` and the `SuggestController.trigger` stub.
JavaScript runtime behaviour that the source relies on (property lookup
on `undefined` throwing a TypeError, `Number`/`isNaN` coercion,
`String.prototype.indexOf`, promise `then` with a single handler) is
embedded explicitly.
-/

namespace suggestStateMachine

/-- enum `State` of namespace `suggestStateMachine` (source lines 28-38),
keeping the spellings `LoadingExplict` and
`ResultExplicitFroozen`. -/
inductive State where
  | Idle
  | LoadingAuto
  | ResultAuto
  | ResultAutoIncomplete
  | LoadingExplict
  | ResultExplicit
  | ResultExplicitIncomplete
  | ResultExplicitFroozen
  | ResultExplicitEmpty
deriving DecidableEq, Repr

/-- enum `Message` of namespace `suggestStateMachine` (source lines 40-50),
keeping the spelling `ResultIncomple` of the source. -/
inductive Message where
  | Cancel
  | Explicit
  | TriggerCharacterTyped
  | WordStarted
  | WordEnded
  | WordContinued
  | Result
  | ResultEmpty
  | ResultIncomple
deriving DecidableEq, Repr

/-- The row of the transition table `fma` for a given state: `none` models
the absence of any object at `fma[state]` (states `ResultExplicitIncomplete`,
`ResultExplicitFroozen` and `ResultExplicitEmpty` get no assignment in the
source, lines 52-84); inside a present row, `none` models an absent
property. -/
def fmaRow : State → Option (Message → Option State)
  | State.Idle => some fun
      | Message.Explicit => some State.LoadingExplict
      | Message.TriggerCharacterTyped => some State.LoadingAuto
      | Message.WordStarted => some State.LoadingAuto
      | _ => none
  | State.LoadingAuto => some fun
      | Message.ResultEmpty => some State.Idle
      | Message.ResultIncomple => some State.ResultAutoIncomplete
      | Message.Result => some State.ResultAuto
      | _ => none
  | State.ResultAuto => some fun
      | Message.WordContinued => some State.ResultAuto
      | Message.ResultEmpty => some State.Idle
      | _ => none
  | State.ResultAutoIncomplete => some fun
      | Message.WordContinued => some State.LoadingAuto
      | _ => none
  | State.LoadingExplict => some fun
      | Message.ResultEmpty => some State.ResultExplicitEmpty
      | Message.ResultIncomple => some State.ResultExplicitIncomplete
      | Message.Result => some State.ResultExplicit
      | _ => none
  | State.ResultExplicit => some fun
      | Message.WordContinued => some State.ResultExplicit
      | Message.ResultEmpty => some State.ResultExplicitFroozen
      | _ => none
  | State.ResultExplicitIncomplete => none
  | State.ResultExplicitFroozen => none
  | State.ResultExplicitEmpty => none

/-- The wildcard row `fma[-1]` (source lines 87-91): transitions keyed by
message alone. -/
def wildcardRow : Message → Option State
  | Message.Cancel => some State.Idle
  | Message.WordEnded => some State.Idle
  | Message.TriggerCharacterTyped => some State.LoadingAuto
  | _ => none

/-- The state-specific entry `fma[state][message]` when the row `fma[state]`
exists; `none` when the row is absent or the row has no such property. -/
def stateEntry (s : State) (m : Message) : Option State :=
  match fmaRow s with
  | none => none
  | some row => row m

/-- How a call to `advance` can fail. `typeError` models the JavaScript
TypeError thrown by evaluating `fma[currentState][message]` when
`fma[currentState]` is `undefined`; `illegalTransition` models the
explicitly thrown `illegal transition from ... with ...` Error. -/
inductive AdvanceError where
  | typeError
  | illegalTransition
deriving DecidableEq, Repr

/-- `advance(message)` (source lines 99-112) as a function of the current
state. `let result = fma[currentState][message]` first dereferences the row
object `fma[currentState]`: when that row is absent the property read throws
a TypeError before the wildcard row is ever consulted. When the row exists
but lacks the message, the wildcard row `fma[-1]` is consulted; if that also
lacks the message, the explicit illegal-transition Error is thrown.
On success the returned state is assigned to `currentState` and returned,
so `Except.ok s` means the machine moves to (and returns) `s`. -/
def advance (current : State) (m : Message) : Except AdvanceError State :=
  match fmaRow current with
  | none => Except.error AdvanceError.typeError
  | some row =>
    match row m with
    | some next => Except.ok next
    | none =>
      match wildcardRow m with
      | some next => Except.ok next
      | none => Except.error AdvanceError.illegalTransition

end suggestStateMachine

/-- `IPosition` as the source uses it: a line number and a column. -/
structure IPosition where
  lineNumber : Nat
  column : Nat
deriving DecidableEq, Repr

/-- The value returned by `editor.getModel().getWordAtPosition(position)`:
the token text and its start/end columns. -/
structure IWordAtPosition where
  word : String
  startColumn : Nat
  endColumn : Nat
deriving DecidableEq, Repr

/-- `String.prototype.indexOf(needle)` scanning from position `i`: the
first index at which `needle` occurs in the remaining haystack, `-1` when
it never occurs. -/
def jsIndexOfFrom (needle : List Char) : List Char → Nat → Int
  | [], i => if needle = [] then Int.ofNat i else -1
  | c :: t, i =>
    if needle.isPrefixOf (c :: t) then Int.ofNat i else jsIndexOfFrom needle t (i + 1)

/-- JavaScript `hay.indexOf(needle)`: index of the first occurrence of
`needle` in `hay`, `-1` when absent. -/
def jsIndexOf (hay needle : String) : Int :=
  jsIndexOfFrom needle.data hay.data 0

/-- Whitespace accepted by the JavaScript ToNumber string conversion
(space, tab, newline, carriage return, form feed, vertical tab). -/
def isJsWhitespace (c : Char) : Bool :=
  c = ' ' ∨ c = '\t' ∨ c = '\n' ∨ c = '\x0d' ∨ c = '\x0c' ∨ c = '\x0b'

/-- Exponent part of a JavaScript decimal literal: empty, or `e`/`E`, an
optional sign and at least one digit. -/
def jsCheckExponent : List Char → Bool
  | [] => true
  | c :: rest =>
    (c = 'e' ∨ c = 'E') &&
    (match rest with
     | '+' :: ds => !ds.isEmpty && ds.all Char.isDigit
     | '-' :: ds => !ds.isEmpty && ds.all Char.isDigit
     | ds => !ds.isEmpty && ds.all Char.isDigit)

/-- What may follow the integer digits of a JavaScript decimal literal:
nothing, an exponent, or a dot with optional fraction digits and an
optional exponent. -/
def jsCheckFractionExponent : List Char → Bool
  | '.' :: rest =>
    let fs := rest.takeWhile Char.isDigit
    jsCheckExponent (rest.drop fs.length)
  | l => jsCheckExponent l

/-- Unsigned part of a JavaScript string numeric literal: `Infinity` or a
decimal literal (`123`, `123.`, `123.45`, `.45`, each with an optional
exponent). -/
def jsIsUnsignedDecimal (l : List Char) : Bool :=
  if l = String.toList "Infinity" then true
  else
    let ds := l.takeWhile Char.isDigit
    if ds.isEmpty then
      match l with
      | '.' :: rest =>
        let fs := rest.takeWhile Char.isDigit
        !fs.isEmpty && jsCheckExponent (rest.drop fs.length)
      | _ => false
    else jsCheckFractionExponent (l.drop ds.length)

/-- A whole (already trimmed, nonempty) string that JavaScript `Number`
converts to a number rather than NaN: an optionally signed decimal literal
or `Infinity`, or an unsigned hex / octal / binary literal. -/
def jsIsNumericLiteral (l : List Char) : Bool :=
  match l with
  | '0' :: x :: rest =>
    if x = 'x' ∨ x = 'X' then !rest.isEmpty && rest.all (fun c => c.isDigit ∨ ('a' ≤ c ∧ c ≤ 'f') ∨ ('A' ≤ c ∧ c ≤ 'F'))
    else if x = 'o' ∨ x = 'O' then !rest.isEmpty && rest.all (fun c => '0' ≤ c ∧ c ≤ '7')
    else if x = 'b' ∨ x = 'B' then !rest.isEmpty && rest.all (fun c => c = '0' ∨ c = '1')
    else jsIsUnsignedDecimal l
  | '+' :: rest => jsIsUnsignedDecimal rest
  | '-' :: rest => jsIsUnsignedDecimal rest
  | _ => jsIsUnsignedDecimal l

/-- JavaScript `isNaN(Number(s))`: trim the ToNumber whitespace; the empty
string converts to `0` (so not NaN); otherwise NaN exactly when the trimmed
string is not a numeric literal. The source uses this test (line 188) to
reject purely numeric tokens. -/
def jsNumberIsNaN (s : String) : Bool :=
  let t := ((s.data.dropWhile isJsWhitespace).reverse.dropWhile isJsWhitespace).reverse
  if t.isEmpty then false else !jsIsNumericLiteral t

/-- The `Word` class (source lines 182-212): line, start/end columns and the
token text (constructor field `value`). -/
structure Word where
  line : Nat
  startColumn : Nat
  endColumn : Nat
  value : String
deriving DecidableEq, Repr

/-- `Word.strictUntilPosition(editor, position)` (source lines 184-192).
The external call `editor.getModel().getWordAtPosition(position)` is the
parameter `getWordAtPosition`. A `Word` is produced only when a word is
found whose `endColumn` equals the cursor column and whose text is not
numeric (`isNaN(Number(word.word))`); every other path falls through and
returns `undefined`, modelled as `none`. -/
def Word.strictUntilPosition (getWordAtPosition : IPosition → Option IWordAtPosition)
    (position : IPosition) : Option Word :=
  match getWordAtPosition position with
  | none => none
  | some word =>
    if word.endColumn = position.column ∧ jsNumberIsNaN word.word then
      some ⟨position.lineNumber, word.startColumn, word.endColumn, word.word⟩
    else
      none

/-- `Word.isContinuation(word)` (source lines 198-211), with `a` the
receiver (`this`, the previously tracked word) and `b` the argument (the
new word): false when the line or start column differ or the end column
does not grow; otherwise the result of `value.indexOf(this.value) === 0`
on the text of the new word. -/
def Word.isContinuation (a b : Word) : Bool :=
  if a.line ≠ b.line ∨ a.startColumn ≠ b.startColumn ∨ a.endColumn ≥ b.endColumn then
    false
  else
    jsIndexOf b.value a.value = 0

/-- `CursorChangeReason` from `editorCommon`; the listener only compares
against `NotSet` (a plain edit). -/
inductive CursorChangeReason where
  | NotSet
  | ContentFlush
  | RecoverFromMarkers
  | Explicit
  | Paste
  | Undo
  | Redo
deriving DecidableEq, Repr

/-- The parts of `ICursorSelectionChangedEvent` the listener reads:
whether the selection is empty, the input source, the change reason and
the position of the selection. -/
structure ICursorSelectionChangedEvent where
  selectionIsEmpty : Bool
  source : String
  reason : CursorChangeReason
  positionLineNumber : Nat
  positionColumn : Nat
deriving DecidableEq, Repr

/-- Mutable fields of `WordListener` (source lines 214-219):
`_quickSuggestDelay` and `_currentWord`. The timeout handle is represented
by the actions the handler emits. -/
structure WordListener where
  quickSuggestDelay : Int
  currentWord : Option Word
deriving DecidableEq, Repr

/-- Calls `_handleCursorChange` makes on the controller/timer:
`cancelSuggestWidget` asks the controller to hide the widget;
`scheduleAutoTrigger position delay` is `clearTimeout` of the previous
handle followed by `setTimeout(..., delay)` of a callback that fetches
suggestions at `position` and calls `controller.trigger(position, true,
promise)` (automatic trigger). -/
inductive ListenerAction where
  | cancelSuggestWidget
  | scheduleAutoTrigger (position : IPosition) (delay : Int)
deriving DecidableEq, Repr

/-- `WordListener._handleCursorChange(e)` (source lines 233-264), returning
the updated listener state and the emitted actions. When the delay is
negative, the selection nonempty, the source not keyboard or the reason not
`NotSet`, the widget is cancelled and nothing else happens (the tracked
word is left as it was). Otherwise the word at the cursor is looked up; if
absent the tracked word is cleared and the widget cancelled; if present and
not a continuation of the tracked word (or no word was tracked) a delayed
automatic trigger is scheduled with `_quickSuggestDelay`; either way the
word becomes the tracked word. -/
def WordListener.handleCursorChange (getWordAtPosition : IPosition → Option IWordAtPosition)
    (st : WordListener) (e : ICursorSelectionChangedEvent) :
    WordListener × List ListenerAction :=
  if st.quickSuggestDelay < 0 ∨ e.selectionIsEmpty = false ∨ e.source ≠ "keyboard"
      ∨ e.reason ≠ CursorChangeReason.NotSet then
    (st, [ListenerAction.cancelSuggestWidget])
  else
    let position : IPosition := ⟨e.positionLineNumber, e.positionColumn⟩
    match Word.strictUntilPosition getWordAtPosition position with
    | none => ({ st with currentWord := none }, [ListenerAction.cancelSuggestWidget])
    | some word =>
      let shouldSchedule : Bool :=
        match st.currentWord with
        | none => true
        | some cw => !(cw.isContinuation word)
      ({ st with currentWord := some word },
       if shouldSchedule then [ListenerAction.scheduleAutoTrigger position st.quickSuggestDelay]
       else [])

/-- `WordListener._handleConfigurationChange` (source lines 266-273),
computing the new `_quickSuggestDelay` from the configuration: `-1` when
quick suggestions are disabled; otherwise the configured delay, with NaN
(modelled as `none`) and any value below 10 replaced by 10. -/
def WordListener.handleConfigurationChange (quickSuggestions : Bool)
    (quickSuggestionsDelay : Option Int) : Int :=
  if quickSuggestions = false then -1
  else
    match quickSuggestionsDelay with
    | none => 10
    | some value => if value < 10 then 10 else value

/-- A suggest provider (`ISuggestSupport`) as the trigger-character
listener reads it: an identity and the optional declared trigger
characters (`none` models an absent `triggerCharacters` field; the
elements are strings because `triggerCharacters` is a string array). -/
structure ISuggestSupport where
  id : Nat
  triggerCharacters : Option (List String)
deriving DecidableEq, Repr

/-- The bucket `providerByCh[ch]` after the build loop of
`TriggerCharacterListener._update` (source lines 149-164): for each
provider in registry order, providers without a `triggerCharacters` field
are skipped, and the provider is appended once per occurrence of `ch`
among its declared trigger characters. -/
def providerByCh (ch : String) : List ISuggestSupport → List ISuggestSupport
  | [] => []
  | p :: rest =>
    (match p.triggerCharacters with
     | none => []
     | some chars => (chars.filter (· = ch)).map (fun _ => p)) ++ providerByCh ch rest

/-- What the typing listener registered for one character does when that
character is typed (source lines 166-178): it fetches suggestions scoped
to the providers bucketed under the character, advances the state machine
with `TriggerCharacterTyped`, and hands the fetch to the controller with
the automatic flag set. -/
structure TypingEffect where
  fetchProviderScope : List ISuggestSupport
  message : suggestStateMachine.Message
  isAutomatic : Bool
deriving Repr

/-- `TriggerCharacterListener._update` (source lines 138-179) restricted to
the listener installed for character `ch`: `none` when the update bails out
(read-only editor, no model, or suggest-on-trigger-characters disabled) or
when no provider buckets under `ch` (so no listener is registered for it);
otherwise the effect of typing `ch`. -/
def triggerCharacterListenerFor (readOnly hasModel suggestOnTriggerCharacters : Bool)
    (providers : List ISuggestSupport) (ch : String) : Option TypingEffect :=
  if readOnly = true ∨ hasModel = false ∨ suggestOnTriggerCharacters = false then
    none
  else
    let bucket := providerByCh ch providers
    if bucket.isEmpty then none
    else some ⟨bucket, suggestStateMachine.Message.TriggerCharacterTyped, true⟩

/-- A suggestion item as `trigger` sees it: an opaque payload; only the
length of the resolved list is observed. -/
structure ISuggestionItem where
  idx : Nat
deriving DecidableEq, Repr

/-- Everything `SuggestController.trigger` could make observable: the
`console.log` of the resolved item count, and the three widget events
(`showTriggered`, `showSuggestions`, `showDidCancel`) that the commented
publication path would emit. -/
inductive ControllerOutput where
  | consoleLogNew (position : IPosition) (auto : Bool) (length : Nat)
  | showTriggered (auto : Bool) (retrigger : Bool)
  | showSuggestions (auto : Bool)
  | showDidCancel (retrigger : Bool)
deriving DecidableEq, Repr

/-- Whether an output is an event published to the suggest widget (a UI
event), as opposed to a console log. -/
def ControllerOutput.isWidgetEvent : ControllerOutput → Bool
  | ControllerOutput.consoleLogNew _ _ _ => false
  | _ => true

/-- Whether an output is a published result ("suggestions available")
event. -/
def ControllerOutput.isResultEvent : ControllerOutput → Bool
  | ControllerOutput.showSuggestions _ => true
  | _ => false

/-- Handlers a call to `promise.then(...)` registers on a promise: the
fulfillment handler, and `none` for the rejection handler when `then` is
called with a single argument (a rejection then propagates unhandled and
produces no output). -/
structure RegisteredHandlers where
  onFulfilled : List ISuggestionItem → List ControllerOutput
  onRejected : Option (Unit → List ControllerOutput)

/-- `SuggestController.trigger(position, auto, promise)` (source lines
333-347): the synchronous body only calls
`promise.then(items => console.log(...))`; the widget-event publication is
commented out. The first component is the outputs emitted synchronously
(none); the second is the handlers registered on the promise. -/
def SuggestController.trigger (position : IPosition) (auto : Bool) :
    List ControllerOutput × RegisteredHandlers :=
  ([],
   { onFulfilled := fun items =>
       [ControllerOutput.consoleLogNew position auto items.length],
     onRejected := none })

/-- A run of the controller against promises identified by number: the
outputs emitted so far and the handlers registered on each still-pending
promise. -/
structure PromiseWorld where
  emitted : List ControllerOutput
  pending : List (Nat × RegisteredHandlers)

/-- Calling `controller.trigger(position, auto, promise)` on promise
`pid`: the synchronous outputs are emitted and the handlers are registered
on the promise. -/
def PromiseWorld.stepTrigger (w : PromiseWorld) (pid : Nat) (position : IPosition)
    (auto : Bool) : PromiseWorld :=
  let r := SuggestController.trigger position auto
  { emitted := w.emitted ++ r.1, pending := w.pending ++ [(pid, r.2)] }

/-- Promise `pid` resolving with `items`: every fulfillment handler
registered on it runs (emitting its outputs in registration order) and the
promise leaves the pending set. -/
def PromiseWorld.stepResolve (w : PromiseWorld) (pid : Nat)
    (items : List ISuggestionItem) : PromiseWorld :=
  { emitted := w.emitted ++
      (w.pending.filter (fun h => h.1 = pid)).foldl
        (fun acc h => acc ++ h.2.onFulfilled items) [],
    pending := w.pending.filter (fun h => h.1 ≠ pid) }

/-- Promise `pid` rejecting: rejection handlers registered on it run; a
registration whose rejection handler is `none` (a one-argument `then`)
emits nothing and the rejection propagates unhandled past the controller. -/
def PromiseWorld.stepReject (w : PromiseWorld) (pid : Nat) : PromiseWorld :=
  { emitted := w.emitted ++
      (w.pending.filter (fun h => h.1 = pid)).foldl
        (fun acc h =>
          acc ++ (match h.2.onRejected with
                  | none => []
                  | some f => f ())) [],
    pending := w.pending.filter (fun h => h.1 ≠ pid) }

/-- The empty run: nothing emitted, no pending promise. -/
def PromiseWorld.start : PromiseWorld := { emitted := [], pending := [] }

/-- The rapid-retrigger scenario: `trigger` is called for promise 0 and,
before promise 0 resolves, again for promise 1; then promise 0 resolves
with one item, then promise 1 resolves with one item. -/
def twoTriggerScenario : PromiseWorld :=
  ((((PromiseWorld.start.stepTrigger 0 ⟨1, 1⟩ false).stepTrigger 1 ⟨1, 2⟩ false).stepResolve
      0 [⟨0⟩]).stepResolve 1 [⟨1⟩])

open suggestStateMachine

theorem jsIndexOfFrom_lower_bound (needle : List Char) :
    ∀ (l : List Char) (i : Nat),
      jsIndexOfFrom needle l i = -1 ∨ (i : Int) ≤ jsIndexOfFrom needle l i
  | [], i => by
    unfold jsIndexOfFrom
    split
    · right; simp
    · left; rfl
  | c :: t, i => by
    unfold jsIndexOfFrom
    split
    · right; simp
    · rcases jsIndexOfFrom_lower_bound needle t (i + 1) with h | h
      · left; exact h
      · right; omega

theorem isPrefixOf_eq_true_iff : ∀ (l₁ l₂ : List Char),
    l₁.isPrefixOf l₂ = true ↔ l₁ <+: l₂
  | [], l₂ => by simp
  | a :: as, [] => by simp
  | a :: as, b :: bs => by
    rw [List.isPrefixOf_cons₂, List.cons_prefix_cons, Bool.and_eq_true, beq_iff_eq,
      isPrefixOf_eq_true_iff as bs]

theorem jsIndexOf_eq_zero_iff (hay needle : String) :
    jsIndexOf hay needle = 0 ↔ needle.data <+: hay.data := by
  unfold jsIndexOf
  cases h : hay.data with
  | nil =>
    unfold jsIndexOfFrom
    split
    · next hn => simp [hn]
    · next hn =>
      constructor
      · intro h0; exact absurd h0 (by decide)
      · intro hpre; exact absurd (List.prefix_nil.mp hpre) hn
  | cons c t =>
    unfold jsIndexOfFrom
    split
    · next hp => simp [(isPrefixOf_eq_true_iff needle.data (c :: t)).mp hp]
    · next hp =>
      constructor
      · intro h0
        exfalso
        rcases jsIndexOfFrom_lower_bound needle.data t (0 + 1) with hb | hb <;> omega
      · intro hpre
        exact absurd ((isPrefixOf_eq_true_iff needle.data (c :: t)).mpr hpre) hp

/-- Claim C1, evaluated at the failing input: the pair
(`ResultExplicitEmpty`, `Explicit`) has no state-specific entry and no
wildcard entry, so per the claim `advance` should fail with the
illegal-transition error; instead the unguarded read of the absent row
`fma[ResultExplicitEmpty]` makes `advance` fail with a TypeError. -/
theorem advance_undefined_pair_fails_with_typeError :
    stateEntry State.ResultExplicitEmpty Message.Explicit = none ∧
    wildcardRow Message.Explicit = none ∧
    advance State.ResultExplicitEmpty Message.Explicit
      = Except.error AdvanceError.typeError ∧
    advance State.ResultExplicitEmpty Message.Explicit
      ≠ Except.error AdvanceError.illegalTransition := by
  refine ⟨rfl, rfl, rfl, ?_⟩
  intro h
  exact Except.noConfusion h fun he => AdvanceError.noConfusion he

/-- Claim C3, evaluated at the failing input: `Cancel` is a wildcard event
mapped to `Idle`, and `ResultExplicitFroozen` has no more specific rule for
it, so per the claim `advance` should yield `Idle`; instead the absent row
`fma[ResultExplicitFroozen]` makes `advance` fail with a TypeError before
the wildcard row is consulted. -/
theorem advance_wildcard_from_froozen_fails :
    wildcardRow Message.Cancel = some State.Idle ∧
    stateEntry State.ResultExplicitFroozen Message.Cancel = none ∧
    advance State.ResultExplicitFroozen Message.Cancel
      = Except.error AdvanceError.typeError ∧
    advance State.ResultExplicitFroozen Message.Cancel ≠ Except.ok State.Idle := by
  refine ⟨rfl, rfl, rfl, ?_⟩
  intro h
  exact Except.noConfusion h

/-- Claim C4: the three states without any row in the transition table
(`ResultExplicitIncomplete`, `ResultExplicitFroozen`,
`ResultExplicitEmpty`) make `advance` dereference an absent row before the
wildcard table is consulted, so for every message — the wildcard messages
included — `advance` from those states fails with a TypeError; no message
yields a successful transition, and the failure is not the intended
illegal-transition error. -/
theorem advance_rowless_states_always_typeError :
    ∀ m : Message,
      (fmaRow State.ResultExplicitIncomplete).isNone = true ∧
      (fmaRow State.ResultExplicitFroozen).isNone = true ∧
      (fmaRow State.ResultExplicitEmpty).isNone = true ∧
      advance State.ResultExplicitIncomplete m = Except.error AdvanceError.typeError ∧
      advance State.ResultExplicitFroozen m = Except.error AdvanceError.typeError ∧
      advance State.ResultExplicitEmpty m = Except.error AdvanceError.typeError := by
  intro m
  exact ⟨rfl, rfl, rfl, rfl, rfl, rfl⟩

/-- Claim C5: `a.isContinuation b` is true exactly when `a` and `b` are on
the same line, share the start column, `b` ends strictly further right
than `a`, and the text of `b` starts with the text of `a`. -/
theorem isContinuation_iff (a b : Word) :
    a.isContinuation b = true ↔
      (a.line = b.line ∧ a.startColumn = b.startColumn ∧ a.endColumn < b.endColumn ∧
       a.value.data <+: b.value.data) := by
  unfold Word.isContinuation
  split
  · next h =>
    constructor
    · intro hfalse; exact absurd hfalse (by decide)
    · rintro ⟨h1, h2, h3, _⟩
      rcases h with h | h | h
      · exact absurd h1 h
      · exact absurd h2 h
      · omega
  · next h =>
    push_neg at h
    rw [decide_eq_true_iff, jsIndexOf_eq_zero_iff]
    exact ⟨fun hp => ⟨h.1, h.2.1, by omega, hp⟩, fun hp => hp.2.2.2⟩

/-- Claim C9: the word lookup returns no `Word` when the external
word-at-position lookup finds nothing at the cursor, or when the token it
finds is numeric (JavaScript `Number` does not convert it to NaN); and
every `Word` it does return ends exactly at the cursor column and carries
non-numeric text. -/
theorem strictUntilPosition_spec (getWordAtPosition : IPosition → Option IWordAtPosition)
    (pos : IPosition) :
    (getWordAtPosition pos = none → Word.strictUntilPosition getWordAtPosition pos = none) ∧
    (∀ w, getWordAtPosition pos = some w → jsNumberIsNaN w.word = false →
      Word.strictUntilPosition getWordAtPosition pos = none) ∧
    (∀ word, Word.strictUntilPosition getWordAtPosition pos = some word →
      word.endColumn = pos.column ∧ jsNumberIsNaN word.value = true) := by
  refine ⟨?_, ?_, ?_⟩
  · intro h
    simp only [Word.strictUntilPosition, h]
  · intro w hw hnan
    simp only [Word.strictUntilPosition, hw]
    rw [if_neg]
    intro hcond
    rw [hnan] at hcond
    exact Bool.noConfusion hcond.2
  · intro word hword
    cases hg : getWordAtPosition pos with
    | none =>
      simp only [Word.strictUntilPosition, hg] at hword
      exact Option.noConfusion hword
    | some w =>
      simp only [Word.strictUntilPosition, hg] at hword
      split at hword
      · next hcond =>
        cases hword
        exact ⟨hcond.1, hcond.2⟩
      · exact Option.noConfusion hword

/-- Witness for `strictUntilPosition_spec` at a concrete lookup and
position: with no word at the cursor the result is `none`. -/
theorem strictUntilPosition_spec_witness :
    Word.strictUntilPosition (fun _ => none) ⟨1, 3⟩ = none :=
  (strictUntilPosition_spec (fun _ => none) ⟨1, 3⟩).1 rfl

/-- Counterexample to claim C6 as stated: with quick suggestions enabled
and the delay configured to the negative value `-5`, automatic triggering
is not disabled — the configuration handler clamps the delay to 10, and a
qualifying keyboard cursor change onto a fresh word schedules an automatic
fetch instead of cancelling the suggestions. -/
theorem wordListener_negative_delay_clamped :
    WordListener.handleConfigurationChange true (some (-5)) = 10 ∧
    (WordListener.handleCursorChange (fun _ => some ⟨"foo", 1, 3⟩) ⟨10, none⟩
        ⟨true, "keyboard", CursorChangeReason.NotSet, 1, 3⟩).2
      = [ListenerAction.scheduleAutoTrigger ⟨1, 3⟩ 10] := by
  exact ⟨rfl, rfl⟩

/-- Claim C6 as amended: with quick suggestions enabled and delay
configured to `d`, a qualifying keyboard-driven cursor change onto a new
(non-continuing) word schedules an automatic fetch after the clamped delay,
which is at least `d` and at least 10; and automatic triggering is disabled
entirely — the next qualifying cursor change cancels visible suggestions
instead of scheduling a fetch — exactly when the quick-suggestions feature
itself is disabled, the internal delay then being the sentinel `-1`. -/
theorem wordListener_delay_clamp_and_disable (d : Int)
    (getWordAtPosition : IPosition → Option IWordAtPosition)
    (cw : Option Word) (e : ICursorSelectionChangedEvent) (w : Word)
    (hsel : e.selectionIsEmpty = true)
    (hsrc : e.source = "keyboard")
    (hreason : e.reason = CursorChangeReason.NotSet)
    (hw : Word.strictUntilPosition getWordAtPosition
        ⟨e.positionLineNumber, e.positionColumn⟩ = some w)
    (hnc : ∀ c, cw = some c → c.isContinuation w = false) :
    (WordListener.handleConfigurationChange true (some d) ≥ d ∧
     WordListener.handleConfigurationChange true (some d) ≥ 10 ∧
     (WordListener.handleCursorChange getWordAtPosition
         ⟨WordListener.handleConfigurationChange true (some d), cw⟩ e).2
       = [ListenerAction.scheduleAutoTrigger ⟨e.positionLineNumber, e.positionColumn⟩
            (WordListener.handleConfigurationChange true (some d))]) ∧
    (WordListener.handleConfigurationChange false (some d) = -1 ∧
     (WordListener.handleCursorChange getWordAtPosition ⟨-1, cw⟩ e).2
       = [ListenerAction.cancelSuggestWidget]) := by
  have hdelay : WordListener.handleConfigurationChange true (some d)
      = if d < 10 then 10 else d := rfl
  have hge10 : WordListener.handleConfigurationChange true (some d) ≥ 10 := by
    rw [hdelay]; split <;> omega
  have hged : WordListener.handleConfigurationChange true (some d) ≥ d := by
    rw [hdelay]; split <;> omega
  refine ⟨⟨hged, hge10, ?_⟩, rfl, ?_⟩
  · unfold WordListener.handleCursorChange
    rw [if_neg]
    · simp only [hw]
      cases hcw : cw with
      | none => simp
      | some c =>
        have hc := hnc c hcw
        simp [hc]
    · intro hcond
      rcases hcond with hc | hc | hc | hc
      · exact absurd (show WordListener.handleConfigurationChange true (some d) < 0 from hc)
          (by omega)
      · rw [hsel] at hc
        exact Bool.noConfusion hc
      · exact hc hsrc
      · exact hc hreason
  · unfold WordListener.handleCursorChange
    rw [if_pos (Or.inl (show (-1 : Int) < 0 by decide))]

/-- Witness for `wordListener_delay_clamp_and_disable` at a concrete
configuration (delay 250), word lookup, event and tracked word. -/
theorem wordListener_delay_clamp_and_disable_witness :
    (WordListener.handleConfigurationChange true (some 250) ≥ 250 ∧
     WordListener.handleConfigurationChange true (some 250) ≥ 10 ∧
     (WordListener.handleCursorChange (fun _ => some ⟨"foo", 1, 3⟩)
         ⟨WordListener.handleConfigurationChange true (some 250), none⟩
         ⟨true, "keyboard", CursorChangeReason.NotSet, 1, 3⟩).2
       = [ListenerAction.scheduleAutoTrigger ⟨1, 3⟩
            (WordListener.handleConfigurationChange true (some 250))]) ∧
    (WordListener.handleConfigurationChange false (some 250) = -1 ∧
     (WordListener.handleCursorChange (fun _ => some ⟨"foo", 1, 3⟩) ⟨-1, none⟩
         ⟨true, "keyboard", CursorChangeReason.NotSet, 1, 3⟩).2
       = [ListenerAction.cancelSuggestWidget]) :=
  wordListener_delay_clamp_and_disable 250 (fun _ => some ⟨"foo", 1, 3⟩) none
    ⟨true, "keyboard", CursorChangeReason.NotSet, 1, 3⟩ ⟨1, 1, 3, "foo"⟩
    rfl rfl rfl (by decide) (fun c hc => Option.noConfusion hc)

/-- Counterexample to claim C7 as stated: on a cursor change with a
non-empty selection the listener cancels the suggestion widget but does
not clear the tracked word — the tracked word survives the call. -/
theorem wordListener_cancel_keeps_tracked_word :
    (WordListener.handleCursorChange (fun _ => none) ⟨10, some ⟨1, 1, 3, "foo"⟩⟩
        ⟨false, "keyboard", CursorChangeReason.NotSet, 1, 3⟩).1.currentWord
      = some ⟨1, 1, 3, "foo"⟩ ∧
    (WordListener.handleCursorChange (fun _ => none) ⟨10, some ⟨1, 1, 3, "foo"⟩⟩
        ⟨false, "keyboard", CursorChangeReason.NotSet, 1, 3⟩).2
      = [ListenerAction.cancelSuggestWidget] := by
  exact ⟨rfl, rfl⟩

/-- Claim C7 as amended: on every cursor change with a non-empty
selection, a non-keyboard source, or a reason other than a plain edit, the
listener requests the suggestion UI to hide and leaves its own state — the
tracked word included — unchanged. -/
theorem wordListener_cancel_branch (getWordAtPosition : IPosition → Option IWordAtPosition)
    (st : WordListener) (e : ICursorSelectionChangedEvent)
    (h : e.selectionIsEmpty = false ∨ e.source ≠ "keyboard"
        ∨ e.reason ≠ CursorChangeReason.NotSet) :
    WordListener.handleCursorChange getWordAtPosition st e
      = (st, [ListenerAction.cancelSuggestWidget]) := by
  unfold WordListener.handleCursorChange
  rw [if_pos]
  rcases h with h | h | h
  · exact Or.inr (Or.inl h)
  · exact Or.inr (Or.inr (Or.inl h))
  · exact Or.inr (Or.inr (Or.inr h))

/-- Witness for `wordListener_cancel_branch` at a concrete state and a
cursor change whose selection is non-empty. -/
theorem wordListener_cancel_branch_witness :
    WordListener.handleCursorChange (fun _ => none) ⟨10, none⟩
        ⟨false, "keyboard", CursorChangeReason.NotSet, 1, 1⟩
      = (⟨10, none⟩, [ListenerAction.cancelSuggestWidget]) :=
  wordListener_cancel_branch (fun _ => none) ⟨10, none⟩
    ⟨false, "keyboard", CursorChangeReason.NotSet, 1, 1⟩ (Or.inl rfl)

theorem mem_of_mem_providerByCh (ch : String) :
    ∀ (providers : List ISuggestSupport) (q : ISuggestSupport),
      q ∈ providerByCh ch providers →
      q ∈ providers ∧ ∃ chars, q.triggerCharacters = some chars ∧ ch ∈ chars
  | [], q, hq => absurd hq (List.not_mem_nil q)
  | p :: rest, q, hq => by
    rw [providerByCh, List.mem_append] at hq
    rcases hq with hq | hq
    · cases htc : p.triggerCharacters with
      | none => rw [htc] at hq; exact absurd hq (List.not_mem_nil q)
      | some chars =>
        rw [htc] at hq
        rcases List.mem_map.mp hq with ⟨c, hc, hcq⟩
        cases hcq
        rcases List.mem_filter.mp hc with ⟨hcmem, hceq⟩
        have hcch : c = ch := of_decide_eq_true hceq
        subst hcch
        exact ⟨List.mem_cons_self p rest, chars, htc, hcmem⟩
    · rcases mem_of_mem_providerByCh ch rest q hq with ⟨hmem, chars, htc, hch⟩
      exact ⟨List.mem_cons_of_mem p hmem, chars, htc, hch⟩

theorem mem_providerByCh_of_declared (ch : String) :
    ∀ (providers : List ISuggestSupport) (P : ISuggestSupport) (chars : List String),
      P ∈ providers → P.triggerCharacters = some chars → ch ∈ chars →
      P ∈ providerByCh ch providers
  | [], P, chars, hP, _, _ => absurd hP (List.not_mem_nil P)
  | p :: rest, P, chars, hP, htc, hch => by
    rw [providerByCh, List.mem_append]
    rcases List.mem_cons.mp hP with hP | hP
    · left
      rw [← hP, htc]
      exact List.mem_map.mpr ⟨ch, List.mem_filter.mpr ⟨hch, by simp⟩, rfl⟩
    · right
      exact mem_providerByCh_of_declared ch rest P chars hP htc hch

/-- Claim C10: when `ch` is a declared trigger character of provider `P`
and of no other registered provider, the typing listener installed for
`ch` exists and, on `ch` being typed, issues a fetch scoped to exactly the
provider set containing `P` alone, signals the state machine with
`TriggerCharacterTyped`, and hands the fetch to the controller with the
automatic flag set. -/
theorem triggerCharacterListener_single_provider
    (providers : List ISuggestSupport) (P : ISuggestSupport) (ch : String)
    (chars : List String)
    (hmem : P ∈ providers) (hdecl : P.triggerCharacters = some chars) (hch : ch ∈ chars)
    (honly : ∀ q ∈ providers, q ≠ P →
      ∀ cs, q.triggerCharacters = some cs → ch ∉ cs) :
    ∃ eff, triggerCharacterListenerFor false true true providers ch = some eff ∧
      P ∈ eff.fetchProviderScope ∧
      (∀ q ∈ eff.fetchProviderScope, q = P) ∧
      eff.message = suggestStateMachine.Message.TriggerCharacterTyped ∧
      eff.isAutomatic = true := by
  have hPmem : P ∈ providerByCh ch providers :=
    mem_providerByCh_of_declared ch providers P chars hmem hdecl hch
  have hne : (providerByCh ch providers).isEmpty = false := by
    cases hb : providerByCh ch providers with
    | nil => rw [hb] at hPmem; exact absurd hPmem (List.not_mem_nil P)
    | cons x xs => rfl
  refine ⟨⟨providerByCh ch providers,
      suggestStateMachine.Message.TriggerCharacterTyped, true⟩, ?_, hPmem, ?_, rfl, rfl⟩
  · unfold triggerCharacterListenerFor
    rw [if_neg (by simp)]
    simp only [hne]
    rfl
  · intro q hq
    rcases mem_of_mem_providerByCh ch providers q hq with ⟨hqmem, cs, hqtc, hqch⟩
    by_contra hqP
    exact honly q hqmem hqP cs hqtc hqch

/-- Witness for `triggerCharacterListener_single_provider`: two registered
providers, of which only provider 0 declares the period as a trigger
character. -/
theorem triggerCharacterListener_single_provider_witness :
    ∃ eff, triggerCharacterListenerFor false true true
        [⟨0, some ["."]⟩, ⟨1, some [","]⟩] "." = some eff ∧
      (⟨0, some ["."]⟩ : ISuggestSupport) ∈ eff.fetchProviderScope ∧
      (∀ q ∈ eff.fetchProviderScope, q = (⟨0, some ["."]⟩ : ISuggestSupport)) ∧
      eff.message = suggestStateMachine.Message.TriggerCharacterTyped ∧
      eff.isAutomatic = true :=
  triggerCharacterListener_single_provider
    [⟨0, some ["."]⟩, ⟨1, some [","]⟩] ⟨0, some ["."]⟩ "." ["."]
    (by decide) rfl (by decide)
    (by
      intro q hq hne cs hcs
      rcases List.mem_cons.mp hq with hq | hq
      · exact absurd hq hne
      · rcases List.mem_cons.mp hq with hq | hq
        · rw [hq] at hcs
          cases Option.some.inj hcs
          decide
        · exact absurd hq (List.not_mem_nil q))

/-- Claim C2, evaluated on the rapid-retrigger scenario: after two
`trigger` calls and the resolution of both fetches (the superseded first
one included), the run has emitted exactly the two console logs — one per
resolution, including that of the superseded first fetch — and no
result event has been published at all, for either trigger. -/
theorem trigger_rapid_retrigger_no_supersession :
    twoTriggerScenario.emitted
      = [ControllerOutput.consoleLogNew ⟨1, 1⟩ false 1,
         ControllerOutput.consoleLogNew ⟨1, 2⟩ false 1] ∧
    twoTriggerScenario.emitted.filter ControllerOutput.isResultEvent = [] := by
  exact ⟨rfl, rfl⟩

/-- Claim C8, evaluated on the trigger stub: a `trigger` call emits no
synchronous output (in particular no triggered event); the fulfillment
handler it registers emits only a console log and no widget event; it
registers no rejection handler, so a rejected fetch is not converted into
a cancelled UI event — rejecting the promise handed to a trigger call emits
nothing and the rejection propagates past the controller unhandled. -/
theorem trigger_stub_publishes_nothing :
    (SuggestController.trigger ⟨1, 1⟩ true).1 = [] ∧
    ((SuggestController.trigger ⟨1, 1⟩ true).2.onFulfilled
        [⟨0⟩]).filter ControllerOutput.isWidgetEvent = [] ∧
    (SuggestController.trigger ⟨1, 1⟩ true).2.onRejected = none ∧
    ((PromiseWorld.start.stepTrigger 0 ⟨1, 1⟩ true).stepReject 0).emitted = [] := by
  exact ⟨rfl, rfl, rfl, rfl⟩
